import Mathlib

/-!
Shallow embedding of the pool-discovery / routing / fallback engine of the
invariant-eclipse-trader repository (Express server in `server.js`, scripts in
`app.ts`, `swap.ts`, `index.ts`), together with proofs of the behavioural
properties stated in its specification.

Conventions of the embedding:
* token mint identities are abstract naturals (`Mint`); the canonical ordering
  over identities (used by the external SDK `Pair` constructor to assign
  tokenX/tokenY and to derive pool addresses) is the order on `Nat`;
* BN integer quantities are `Int` / `Nat`; JS floating point slippage values
  are `ℚ` (the only values the code compares them against are 0, 50 and 0.5);
* the external Ledger Client (`market.getAllPools`, `swapSimulation`,
  `market.swap`, account lookup/creation) is an oracle record `Ledger`;
  each run records the network calls it issues in a `List Event` and the
  console failure lines in a `List String`, so that claims about
  "no network interaction" and about the per-candidate failure trail are
  statements about those lists.
-/

/-- Token mint identity (a Solana public key, abstracted). -/
abbrev Mint := Nat

/-- A pool record as enumerated by `market.getAllPools()`: duck-typed, the
tick spacing field may be absent (`pool.tickSpacing || 1` at use sites). -/
structure Pool where
  tokenX : Mint
  tokenY : Mint
  fee : Nat
  tickSpacing : Option Nat
deriving DecidableEq, Repr

/-- JS `pool.tickSpacing || 1`: both an absent field and a zero value are
falsy and fall back to 1. -/
def tickSpacingOrDefault (p : Pool) : Nat :=
  match p.tickSpacing with
  | none => 1
  | some n => if n == 0 then 1 else n

/-- The SDK `Pair` value: canonically ordered token pair plus fee tier. -/
structure Pair where
  tokenX : Mint
  tokenY : Mint
  fee : Nat
  tickSpacing : Nat
deriving DecidableEq, Repr

/-- Modelled from the spec: the external SDK constructor `new Pair(a, b, feeTier)`
(package `@invariant-labs/sdk-eclipse`, not part of this repository) orders the
two token identities canonically, lower identity first (spec section 4.4:
"a fixed, total, deterministic ordering over identities"). -/
def mkPair (a b : Mint) (fee tickSpacing : Nat) : Pair :=
  if a ≤ b then ⟨a, b, fee, tickSpacing⟩ else ⟨b, a, fee, tickSpacing⟩

/-- A derived pool address. Modelled from the spec: the on-chain address is "a
deterministic function of (canonically ordered token pair, fee, tick spacing)";
we take the tuple itself as the address. -/
abbrev PoolAddr := Mint × Mint × Nat × Nat

/-- The SDK `pair.getAddress(programId)`. -/
def Pair.getAddress (p : Pair) : PoolAddr :=
  (p.tokenX, p.tokenY, p.fee, p.tickSpacing)

/-- The filter predicate of `findBestPoolForPair`: the pool matches the
requested pair in either order. -/
def poolMatchesPair (tokenA tokenB : Mint) (p : Pool) : Bool :=
  (p.tokenX == tokenA && p.tokenY == tokenB) ||
  (p.tokenX == tokenB && p.tokenY == tokenA)

/-- Comparator used by `relevantPools.sort((a, b) => a.fee.cmp(b.fee))`.
JS `Array.prototype.sort` is stable (ECMAScript 2019), so the sort is embedded
as a stable merge sort with this boolean order. -/
def feeLE (a b : Pool) : Bool := a.fee ≤ b.fee

/-- Embeds `findBestPoolForPair(market, tokenA, tokenB)` (server, also
duplicated in the repository docs): take the full enumeration from the Ledger,
filter to the pools matching the unordered pair, sort ascending by fee. -/
def findBestPoolForPair (allPools : List Pool) (tokenA tokenB : Mint) : List Pool :=
  (allPools.filter (poolMatchesPair tokenA tokenB)).mergeSort feeLE

/-- Token registry entry (`TOKEN_REGISTRY`): mint identity and decimal
precision (the token program variant is not load-bearing for any claim and the
owner account derivation keeps the mint, so it is omitted). -/
structure TokenInfo where
  mint : Mint
  decimals : Nat
deriving DecidableEq, Repr

/-- The token registry, keyed by upper-case symbol. -/
abbrev Registry := List (String × TokenInfo)

/-- JS `symbol.toUpperCase()`, character-wise. -/
def toUpperCase (s : String) : String := ⟨s.data.map Char.toUpper⟩

/-- Embeds `getTokenInfo(symbol)`: upper-case lookup in `TOKEN_REGISTRY`,
throwing when the symbol is absent. -/
def getTokenInfo (reg : Registry) (symbol : String) : Except String TokenInfo :=
  match reg.lookup (toUpperCase symbol) with
  | some t => Except.ok t
  | none => Except.error ("Token " ++ symbol ++ " not supported")

/-- Owner token account address: `getAssociatedTokenAddressSync(mint, owner,
true, program)` is a deterministic function of mint and owner. -/
def getAssociatedTokenAddressSync (mint : Mint) (owner : String) : Mint × String :=
  (mint, owner)

/-- Status of a swap simulation; the code only distinguishes
`SimulationStatus.Ok` from everything else and logs the status text. -/
inductive SimStatus where
  | ok
  | fail (reason : String)
deriving DecidableEq, Repr

def SimStatus.text : SimStatus → String
  | .ok => "Ok"
  | .fail s => s

/-- Result record of `swapSimulation`. -/
structure SimOutcome where
  status : SimStatus
  priceAfterSwap : Nat
  accumulatedAmountOut : Option Int
deriving DecidableEq, Repr

/-- The argument record of `market.swap(...)`. -/
structure ExecParams where
  xToY : Bool
  estimatedPriceAfterSwap : Nat
  pair : Pair
  amount : Int
  slippage : ℚ
  byAmountIn : Bool
  accountX : Mint × String
  accountY : Mint × String
  owner : String
deriving DecidableEq, Repr

/-- The external Ledger Client, as a deterministic oracle: full pool
enumeration, `swapSimulation(xToY, byAmountIn, amount, _, slippage, market,
poolAddress, maxCrosses)` and `market.swap(params)` (which can throw). -/
structure Ledger where
  allPools : List Pool
  simulate : Bool → Int → ℚ → PoolAddr → SimOutcome
  execute : ExecParams → Except String Nat

/-- A network interaction issued to the Ledger during one request. -/
inductive Event where
  | marketInit
  | listPools
  | ensureAccount (mint : Mint) (owner : String)
  | simCall (xToY : Bool) (amount : Int) (slippage : ℚ) (addr : PoolAddr)
  | execCall (p : ExecParams)
deriving DecidableEq, Repr

def Event.isSimCall : Event → Bool
  | .simCall .. => true
  | _ => false

def Event.isExecCall : Event → Bool
  | .execCall _ => true
  | _ => false

/-- The candidate resolution inside the loop body of `performTokenSwap`:
`new Pair(pool.tokenX, pool.tokenY, { fee: pool.fee, tickSpacing:
pool.tickSpacing || 1 })`. -/
def resolvePair (pool : Pool) : Pair :=
  mkPair pool.tokenX pool.tokenY pool.fee (tickSpacingOrDefault pool)

/-- Direction flag of the loop body:
`const xToY = pair.tokenX.equals(fromTokenInfo.mint)`. -/
def resolveXToY (pool : Pool) (fromMint : Mint) : Bool :=
  (resolvePair pool).tokenX == fromMint

/-- Outcome data of a successful `performTokenSwap` (transaction hash,
estimated output, and the `poolUsed` address/fee record). -/
structure SwapSuccess where
  txHash : Nat
  estimatedToAmount : Option Int
  poolUsedAddress : PoolAddr
  poolUsedFee : Nat
deriving DecidableEq, Repr

/-- Errors thrown by `performTokenSwap` (each is a distinct `throw new
Error(...)` site; the HTTP layer surfaces the message). -/
inductive SwapError where
  | unknownToken (msg : String)
  | noPools (msg : String)
  | allFailed (msg : String)
deriving DecidableEq, Repr

/-- The simulation the loop body of `performTokenSwap` requests for one
candidate pool (`swapSimulation(xToY, true, swapAmount, undefined, slippage,
market, poolAddress, TICK_CROSSES_PER_IX_NATIVE_TOKEN)`). -/
def candSim (L : Ledger) (fromMint : Mint) (swapAmount : Int) (slippage : ℚ)
    (pool : Pool) : SimOutcome :=
  L.simulate (resolveXToY pool fromMint) swapAmount slippage (resolvePair pool).getAddress

/-- The `market.swap` argument record the loop body builds for one candidate:
the price bound is the `priceAfterSwap` of the simulation just obtained for
this same candidate. -/
def candParams (L : Ledger) (fromMint : Mint) (swapAmount : Int) (slippage : ℚ)
    (owner : String) (pool : Pool) : ExecParams :=
  { xToY := resolveXToY pool fromMint,
    estimatedPriceAfterSwap := (candSim L fromMint swapAmount slippage pool).priceAfterSwap,
    pair := resolvePair pool, amount := swapAmount, slippage := slippage,
    byAmountIn := true,
    accountX := getAssociatedTokenAddressSync (resolvePair pool).tokenX owner,
    accountY := getAssociatedTokenAddressSync (resolvePair pool).tokenY owner,
    owner := owner }

/-- The success record returned when one candidate executes: the receipt and
the `poolUsed` address/fee of that candidate. -/
def candSuccess (L : Ledger) (fromMint : Mint) (swapAmount : Int) (slippage : ℚ)
    (pool : Pool) (tx : Nat) : SwapSuccess :=
  { txHash := tx,
    estimatedToAmount := (candSim L fromMint swapAmount slippage pool).accumulatedAmountOut,
    poolUsedAddress := (resolvePair pool).getAddress, poolUsedFee := pool.fee }

/-- The network calls one candidate attempt issues: always its simulation, plus
its execution when the simulation reported `Ok`. -/
def candEvents (L : Ledger) (fromMint : Mint) (swapAmount : Int) (slippage : ℚ)
    (owner : String) (pool : Pool) : List Event :=
  match (candSim L fromMint swapAmount slippage pool).status with
  | SimStatus.fail _ =>
    [Event.simCall (resolveXToY pool fromMint) swapAmount slippage
      (resolvePair pool).getAddress]
  | SimStatus.ok =>
    [Event.simCall (resolveXToY pool fromMint) swapAmount slippage
      (resolvePair pool).getAddress,
     Event.execCall (candParams L fromMint swapAmount slippage owner pool)]

/-- The one console line recorded for a failed candidate attempt (simulation
non-`Ok`, or execution threw); the `Except.ok` case is never consulted. -/
def candReason (L : Ledger) (fromMint : Mint) (swapAmount : Int) (slippage : ℚ)
    (owner : String) (i : Nat) (pool : Pool) : String :=
  match (candSim L fromMint swapAmount slippage pool).status with
  | SimStatus.fail s => "Pool " ++ toString (i + 1) ++ " simulation failed: " ++ s
  | SimStatus.ok =>
    match L.execute (candParams L fromMint swapAmount slippage owner pool) with
    | Except.error e => "Pool " ++ toString (i + 1) ++ " failed: " ++ e
    | Except.ok _ => ""

/-- One candidate attempt fails: its simulation does not report `Ok`, or its
execution throws. -/
def attemptFails (L : Ledger) (fromMint : Mint) (swapAmount : Int) (slippage : ℚ)
    (owner : String) (pool : Pool) : Prop :=
  (∃ r, (candSim L fromMint swapAmount slippage pool).status = SimStatus.fail r) ∨
  ((candSim L fromMint swapAmount slippage pool).status = SimStatus.ok ∧
   ∃ e, L.execute (candParams L fromMint swapAmount slippage owner pool) = Except.error e)

/-- Embeds the candidate loop of `performTokenSwap` (`for (let i = 0; ...)`):
for each pool resolve the pair and direction, simulate, on `Ok` execute; a
non-`Ok` simulation or a throwing execution logs one line for this candidate
and advances; a successful execution returns immediately. Returns the network
calls issued, the console failure lines, and the result if any pool worked. -/
def tryPools (L : Ledger) (fromMint : Mint) (swapAmount : Int) (slippage : ℚ)
    (owner : String) : Nat → List Pool → List Event × List String × Option SwapSuccess
  | _, [] => ([], [], none)
  | i, pool :: rest =>
    match (candSim L fromMint swapAmount slippage pool).status with
    | SimStatus.fail s =>
      let next := tryPools L fromMint swapAmount slippage owner (i + 1) rest
      (Event.simCall (resolveXToY pool fromMint) swapAmount slippage
         (resolvePair pool).getAddress :: next.1,
       ("Pool " ++ toString (i + 1) ++ " simulation failed: " ++ s) :: next.2.1,
       next.2.2)
    | SimStatus.ok =>
      match L.execute (candParams L fromMint swapAmount slippage owner pool) with
      | Except.ok tx =>
        ([Event.simCall (resolveXToY pool fromMint) swapAmount slippage
            (resolvePair pool).getAddress,
          Event.execCall (candParams L fromMint swapAmount slippage owner pool)], [],
         some (candSuccess L fromMint swapAmount slippage pool tx))
      | Except.error e =>
        let next := tryPools L fromMint swapAmount slippage owner (i + 1) rest
        (Event.simCall (resolveXToY pool fromMint) swapAmount slippage
           (resolvePair pool).getAddress ::
         Event.execCall (candParams L fromMint swapAmount slippage owner pool) :: next.1,
         ("Pool " ++ toString (i + 1) ++ " failed: " ++ e) :: next.2.1,
         next.2.2)

/-- The SDK helper `toDecimal(v, scale)` (percentage to decimal conversion):
`toDecimal(slippagePercent, 2)` divides by 100. -/
def toDecimal (v : ℚ) (scale : Nat) : ℚ := v / 10 ^ scale

/-- Embeds `performTokenSwap(fromToken, toToken, amount, slippagePercent,
privateKey)`: build the market connection, resolve both symbols, scale the
amount by the from-token decimals, discover and rank pools, throw when none
match, ensure both owner accounts, then run the candidate loop; when the loop
exhausts all pools throw the aggregate failure. -/
def performTokenSwap (L : Ledger) (reg : Registry) (fromToken toToken : String)
    (amount : Int) (slippagePercent : ℚ) (owner : String) :
    List Event × List String × Except SwapError SwapSuccess :=
  match getTokenInfo reg fromToken with
  | Except.error e => ([Event.marketInit], [], Except.error (SwapError.unknownToken e))
  | Except.ok fromTokenInfo =>
  match getTokenInfo reg toToken with
  | Except.error e => ([Event.marketInit], [], Except.error (SwapError.unknownToken e))
  | Except.ok toTokenInfo =>
    let swapAmount := amount * (10 : Int) ^ fromTokenInfo.decimals
    let pools := findBestPoolForPair L.allPools fromTokenInfo.mint toTokenInfo.mint
    if pools.isEmpty then
      ([Event.marketInit, Event.listPools], [],
       Except.error (SwapError.noPools
         ("No liquidity pools found for " ++ fromToken ++ "/" ++ toToken ++ " pair")))
    else
      let slippage := toDecimal slippagePercent 2
      let run := tryPools L fromTokenInfo.mint swapAmount slippage owner 0 pools
      let preamble := [Event.marketInit, Event.listPools,
        Event.ensureAccount fromTokenInfo.mint owner,
        Event.ensureAccount toTokenInfo.mint owner]
      match run.2.2 with
      | some s => (preamble ++ run.1, run.2.1, Except.ok s)
      | none => (preamble ++ run.1, run.2.1,
          Except.error (SwapError.allFailed "All available pools failed for this swap"))

/-- Request body of `POST /api/swap`; absent JSON fields are `none`. -/
structure SwapRequestBody where
  fromToken : Option String
  toToken : Option String
  amount : Option Int
  slippage : Option ℚ
  privateKey : Option String
deriving DecidableEq, Repr

/-- JS falsiness of an optional string field (`!fromToken`): absent or empty. -/
def falsyStr : Option String → Bool
  | none => true
  | some s => s == ""

/-- JS falsiness of an optional numeric field (`!amount`): absent or zero. -/
def falsyNum : Option Int → Bool
  | none => true
  | some n => n == 0

/-- An HTTP response of the swap endpoint: status code, success flag, error
message if any, result if any. -/
structure ApiResponse where
  status : Nat
  success : Bool
  error : Option String
  result : Option SwapSuccess
deriving DecidableEq, Repr

def SwapError.message : SwapError → String
  | .unknownToken m => m
  | .noPools m => m
  | .allFailed m => m

/-- Embeds the the `POST /api/swap` route handler: required-field check, identical
tokens check, positive amount check, slippage bounds check (with the
destructuring default `slippage = 0.5`), each returning 400 before
`performTokenSwap` is invoked; then the swap itself, 500 on a thrown error. -/
def apiSwapHandler (L : Ledger) (reg : Registry) (body : SwapRequestBody) :
    List Event × List String × ApiResponse :=
  if falsyStr body.fromToken || falsyStr body.toToken ||
      falsyNum body.amount || falsyStr body.privateKey then
    ([], [], { status := 400, success := false,
               error := some "fromToken, toToken, amount, and privateKey are required",
               result := none })
  else
    let fromToken := body.fromToken.getD ""
    let toToken := body.toToken.getD ""
    let amount := body.amount.getD 0
    let slippage := body.slippage.getD (1 / 2 : ℚ)
    let privateKey := body.privateKey.getD ""
    if toUpperCase fromToken == toUpperCase toToken then
      ([], [], { status := 400, success := false,
                 error := some "Cannot swap the same token", result := none })
    else if amount ≤ 0 then
      ([], [], { status := 400, success := false,
                 error := some "Amount must be greater than 0", result := none })
    else if slippage < 0 || slippage > 50 then
      ([], [], { status := 400, success := false,
                 error := some "Slippage must be between 0 and 50 percent", result := none })
    else
      let run := performTokenSwap L reg fromToken toToken amount slippage privateKey
      match run.2.2 with
      | Except.ok s => (run.1, run.2.1,
          { status := 200, success := true, error := none, result := some s })
      | Except.error e => (run.1, run.2.1,
          { status := 500, success := false, error := some e.message, result := none })

/-- Request body of `POST /api/quote` (no owner/private key needed). -/
structure QuoteBody where
  fromToken : Option String
  toToken : Option String
  amount : Option Int
  slippage : Option ℚ
deriving DecidableEq, Repr

/-- An HTTP response of the quote endpoint. -/
structure QuoteResponse where
  status : Nat
  success : Bool
  error : Option String
  estimatedToAmount : Option Int
  fee : Option Nat
deriving DecidableEq, Repr

/-- Embeds the the `POST /api/quote` route handler: required fields, symbol
resolution, decimal scaling, pool discovery; on a non-empty candidate list it
simulates once against `pools[0]` (the lowest-fee pool of the fee-sorted list)
and fails with 400 when that single simulation does not report `Ok`; no other
pool is ever consulted. -/
def apiQuoteHandler (L : Ledger) (reg : Registry) (body : QuoteBody) :
    List Event × QuoteResponse :=
  if falsyStr body.fromToken || falsyStr body.toToken || falsyNum body.amount then
    ([], { status := 400, success := false,
           error := some "fromToken, toToken, and amount are required",
           estimatedToAmount := none, fee := none })
  else
    let fromToken := body.fromToken.getD ""
    let toToken := body.toToken.getD ""
    let amount := body.amount.getD 0
    let slippage := body.slippage.getD (1 / 2 : ℚ)
    match getTokenInfo reg fromToken with
    | Except.error e =>
        ([], { status := 500, success := false, error := some e,
               estimatedToAmount := none, fee := none })
    | Except.ok fromTokenInfo =>
    match getTokenInfo reg toToken with
    | Except.error e =>
        ([], { status := 500, success := false, error := some e,
               estimatedToAmount := none, fee := none })
    | Except.ok toTokenInfo =>
      let swapAmount := amount * (10 : Int) ^ fromTokenInfo.decimals
      let pools := findBestPoolForPair L.allPools fromTokenInfo.mint toTokenInfo.mint
      match pools with
      | [] => ([Event.marketInit, Event.listPools],
          { status := 400, success := false,
            error := some ("No liquidity pools found for " ++ fromToken ++ "/" ++
              toToken ++ " pair"),
            estimatedToAmount := none, fee := none })
      | pool :: _ =>
        let pair := resolvePair pool
        let xToY := pair.tokenX == fromTokenInfo.mint
        let addr := pair.getAddress
        let slippageDecimal := toDecimal slippage 2
        let sim := L.simulate xToY swapAmount slippageDecimal addr
        match sim.status with
        | SimStatus.fail s =>
          ([Event.marketInit, Event.listPools,
            Event.simCall xToY swapAmount slippageDecimal addr],
           { status := 400, success := false,
             error := some ("Simulation failed: " ++ s),
             estimatedToAmount := none, fee := none })
        | SimStatus.ok =>
          ([Event.marketInit, Event.listPools,
            Event.simCall xToY swapAmount slippageDecimal addr],
           { status := 200, success := true, error := none,
             estimatedToAmount := sim.accumulatedAmountOut, fee := some pool.fee })

/-- Embeds the `market.swap` argument record built by the loop body of
`performDocumentationStyleSwap` (app.ts) for the token pair `(tokenA, tokenB)`
it is currently trying: the direction flag is hardcoded
(`const xToY = false; // Start with false as in documentation`) and the price
bound is the constant `estimatedPriceAfterSwap: new BN(1)`; no simulation
result feeds this call. -/
def performDocumentationStyleSwapCall (tokenA tokenB : Mint) (swapAmount : Int)
    (owner : String) : ExecParams :=
  let wrappedEthPair := mkPair tokenA tokenB 1000 1
  { xToY := false, estimatedPriceAfterSwap := 1, pair := wrappedEthPair,
    amount := swapAmount, slippage := 100, byAmountIn := true,
    accountX := getAssociatedTokenAddressSync wrappedEthPair.tokenX owner,
    accountY := getAssociatedTokenAddressSync wrappedEthPair.tokenY owner,
    owner := owner }

/-- Embeds the swap phase of `swapSolToUsdt` (swap.ts): after ensuring the two
token accounts it issues exactly one Ledger call, a `market.swap` whose
direction flag is the constant `xToY = true` and whose price bound is the
constant `estimatedPriceAfterSwap: new BN(1)`; no simulation is requested in
this entry point at all. -/
def swapSolToUsdt (solMint usdtMint : Mint) (owner : String) : List Event :=
  let pair := mkPair solMint usdtMint 6 10
  [Event.ensureAccount solMint owner,
   Event.ensureAccount usdtMint owner,
   Event.execCall
     { xToY := true, estimatedPriceAfterSwap := 1, pair := pair,
       amount := 500000000, slippage := 1, byAmountIn := true,
       accountX := getAssociatedTokenAddressSync solMint owner,
       accountY := getAssociatedTokenAddressSync usdtMint owner,
       owner := owner }]

/-- The failure trail: one console line per failed candidate, in candidate
order, starting from loop index `i`. -/
def failTrail (L : Ledger) (fromMint : Mint) (swapAmount : Int) (slippage : ℚ)
    (owner : String) : Nat → List Pool → List String
  | _, [] => []
  | i, p :: ps => candReason L fromMint swapAmount slippage owner i p ::
      failTrail L fromMint swapAmount slippage owner (i + 1) ps

/-- The BN amount carried by a Ledger call, when it carries one. -/
def Event.amountOf : Event → Option Int
  | .simCall _ a _ _ => some a
  | .execCall p => some p.amount
  | _ => none

/-! Concrete fixtures used by witnesses and counterexamples. -/

/-- Two-token registry with zero-decimal tokens A (mint 0) and B (mint 1). -/
def regAB : Registry := [("A", ⟨0, 0⟩), ("B", ⟨1, 0⟩)]

/-- Registry where the from-token A (mint 0) has 6 decimals. -/
def regA6 : Registry := [("A", ⟨0, 6⟩), ("B", ⟨1, 0⟩)]

/-- A Ledger whose simulations all fail with the given reason and whose
executions all throw. -/
def simFailLedger (ps : List Pool) (r : String) : Ledger :=
  { allPools := ps,
    simulate := fun _ _ _ _ =>
      { status := SimStatus.fail r, priceAfterSwap := 0, accumulatedAmountOut := none },
    execute := fun _ => Except.error "unused" }

/-- First candidate of the two-pool fallback scenario: fee 100000000. -/
def pool1 : Pool := ⟨0, 1, 100000000, some 1⟩

/-- Second candidate of the two-pool fallback scenario: fee 500000000. -/
def pool2 : Pool := ⟨0, 1, 500000000, some 1⟩

/-- Ledger of the fallback scenario: the simulation against the fee-100000000
pool reports a non-success status, the one against the other pool succeeds,
and execution succeeds with receipt 99. -/
def scenarioLedger : Ledger :=
  { allPools := [pool1, pool2],
    simulate := fun _ _ _ addr =>
      if addr = (0, 1, 100000000, 1) then
        { status := SimStatus.fail "TooLargeGap", priceAfterSwap := 0,
          accumulatedAmountOut := none }
      else
        { status := SimStatus.ok, priceAfterSwap := 7, accumulatedAmountOut := some 42 },
    execute := fun _ => Except.ok 99 }


theorem feeLE_trans (a b c : Pool) : feeLE a b → feeLE b c → feeLE a c := by
  simp only [feeLE, decide_eq_true_eq]
  omega

theorem feeLE_total (a b : Pool) : feeLE a b || feeLE b a := by
  simp only [feeLE, Bool.or_eq_true, decide_eq_true_eq]
  omega

/-- Stability of the embedded sort, phrased through filters: the sublist of
pools carrying one fixed fee is unchanged by sorting. -/
theorem mergeSort_filter_fee (f : Nat) :
    ∀ l : List Pool, (l.mergeSort feeLE).filter (fun p => p.fee == f) =
      l.filter (fun p => p.fee == f) := by
  intro l
  induction l with
  | nil => simp
  | cons a l ih =>
    obtain ⟨l₁, l₂, h₁, h₂, h₃⟩ := List.mergeSort_cons feeLE_trans feeLE_total a l
    have ih' : l₁.filter (fun p => p.fee == f) ++ l₂.filter (fun p => p.fee == f) =
        l.filter (fun p => p.fee == f) := by
      rw [← List.filter_append, ← h₂, ih]
    by_cases hf : a.fee = f
    · have hl₁ : l₁.filter (fun p => p.fee == f) = [] := by
        rw [List.filter_eq_nil_iff]
        intro b hb
        have hb' := h₃ b hb
        simp only [feeLE, Bool.not_eq_eq_eq_not, Bool.not_true, decide_eq_false_iff_not,
          Nat.not_le] at hb'
        simp only [beq_iff_eq]
        omega
      rw [hl₁, List.nil_append] at ih'
      rw [h₁, List.filter_append, hl₁, List.nil_append,
          List.filter_cons_of_pos (by simp [hf]),
          List.filter_cons_of_pos (by simp [hf]), ih']
    · rw [h₁, List.filter_append, List.filter_cons_of_neg (by simp [hf]),
          List.filter_cons_of_neg (by simp [hf]), ih']

theorem tryPools_cons_simFail {L : Ledger} {fromMint : Mint} {swapAmount : Int}
    {slippage : ℚ} {owner : String} {i : Nat} {pool : Pool} {rest : List Pool} {r : String}
    (hs : (candSim L fromMint swapAmount slippage pool).status = SimStatus.fail r) :
    tryPools L fromMint swapAmount slippage owner i (pool :: rest) =
      (candEvents L fromMint swapAmount slippage owner pool ++
         (tryPools L fromMint swapAmount slippage owner (i + 1) rest).1,
       candReason L fromMint swapAmount slippage owner i pool ::
         (tryPools L fromMint swapAmount slippage owner (i + 1) rest).2.1,
       (tryPools L fromMint swapAmount slippage owner (i + 1) rest).2.2) := by
  simp only [tryPools, candEvents, candReason, hs, List.singleton_append]

theorem tryPools_cons_execFail {L : Ledger} {fromMint : Mint} {swapAmount : Int}
    {slippage : ℚ} {owner : String} {i : Nat} {pool : Pool} {rest : List Pool} {e : String}
    (hs : (candSim L fromMint swapAmount slippage pool).status = SimStatus.ok)
    (he : L.execute (candParams L fromMint swapAmount slippage owner pool) =
      Except.error e) :
    tryPools L fromMint swapAmount slippage owner i (pool :: rest) =
      (candEvents L fromMint swapAmount slippage owner pool ++
         (tryPools L fromMint swapAmount slippage owner (i + 1) rest).1,
       candReason L fromMint swapAmount slippage owner i pool ::
         (tryPools L fromMint swapAmount slippage owner (i + 1) rest).2.1,
       (tryPools L fromMint swapAmount slippage owner (i + 1) rest).2.2) := by
  simp only [tryPools, candEvents, candReason, hs, he, List.cons_append, List.nil_append]

theorem tryPools_cons_fail {L : Ledger} {fromMint : Mint} {swapAmount : Int}
    {slippage : ℚ} {owner : String} {i : Nat} {pool : Pool} {rest : List Pool}
    (hf : attemptFails L fromMint swapAmount slippage owner pool) :
    tryPools L fromMint swapAmount slippage owner i (pool :: rest) =
      (candEvents L fromMint swapAmount slippage owner pool ++
         (tryPools L fromMint swapAmount slippage owner (i + 1) rest).1,
       candReason L fromMint swapAmount slippage owner i pool ::
         (tryPools L fromMint swapAmount slippage owner (i + 1) rest).2.1,
       (tryPools L fromMint swapAmount slippage owner (i + 1) rest).2.2) := by
  rcases hf with ⟨r, hs⟩ | ⟨hs, e, he⟩
  · exact tryPools_cons_simFail hs
  · exact tryPools_cons_execFail hs he

theorem tryPools_cons_success {L : Ledger} {fromMint : Mint} {swapAmount : Int}
    {slippage : ℚ} {owner : String} {i : Nat} {pool : Pool} {rest : List Pool} {tx : Nat}
    (hs : (candSim L fromMint swapAmount slippage pool).status = SimStatus.ok)
    (he : L.execute (candParams L fromMint swapAmount slippage owner pool) = Except.ok tx) :
    tryPools L fromMint swapAmount slippage owner i (pool :: rest) =
      (candEvents L fromMint swapAmount slippage owner pool, [],
       some (candSuccess L fromMint swapAmount slippage pool tx)) := by
  simp only [tryPools, candEvents, hs, he]

theorem failTrail_length {L : Ledger} {fromMint : Mint} {swapAmount : Int}
    {slippage : ℚ} {owner : String} :
    ∀ (ps : List Pool) (i : Nat),
      (failTrail L fromMint swapAmount slippage owner i ps).length = ps.length
  | [], _ => rfl
  | _ :: ps, i => by
    simp only [failTrail, List.length_cons, failTrail_length ps (i + 1)]

theorem failTrail_get {L : Ledger} {fromMint : Mint} {swapAmount : Int}
    {slippage : ℚ} {owner : String} :
    ∀ (ps : List Pool) (i k : Nat) (h : k < ps.length)
      (h' : k < (failTrail L fromMint swapAmount slippage owner i ps).length),
      (failTrail L fromMint swapAmount slippage owner i ps).get ⟨k, h'⟩ =
        candReason L fromMint swapAmount slippage owner (i + k) (ps.get ⟨k, h⟩)
  | p :: ps, i, 0, h, h' => by simp [failTrail]
  | p :: ps, i, k + 1, h, h' => by
    have hk : k < ps.length := by simpa using h
    have hk' : k < (failTrail L fromMint swapAmount slippage owner (i + 1) ps).length := by
      rw [failTrail_length]
      exact hk
    have := failTrail_get ps (i + 1) k hk hk'
    simp only [failTrail, List.get_cons_succ, List.get_cons_succ, this]
    congr 1
    omega

/-- When every candidate attempt fails, the loop exhausts the list with no
result; the events are the per-candidate blocks in order and the log is the
failure trail (one line per candidate, in order). -/
theorem tryPools_all_fail {L : Ledger} {fromMint : Mint} {swapAmount : Int}
    {slippage : ℚ} {owner : String} :
    ∀ (ps : List Pool) (i : Nat),
      (∀ p ∈ ps, attemptFails L fromMint swapAmount slippage owner p) →
      tryPools L fromMint swapAmount slippage owner i ps =
        ((ps.map (candEvents L fromMint swapAmount slippage owner)).flatten,
         failTrail L fromMint swapAmount slippage owner i ps,
         none)
  | [], i, _ => rfl
  | pool :: rest, i, h => by
    rw [tryPools_cons_fail (h pool (List.mem_cons_self pool rest)),
        tryPools_all_fail rest (i + 1) (fun p hp => h p (List.mem_cons_of_mem pool hp))]
    simp [failTrail]

/-- When all candidates before `p` fail and `p` itself simulates and executes
successfully, the loop returns the success for `p`; the events stop at the
block for `p` (no candidate after `p` is consulted, simulated or executed),
and the log carries exactly the reasons of the failed earlier candidates. -/
theorem tryPools_first_success {L : Ledger} {fromMint : Mint} {swapAmount : Int}
    {slippage : ℚ} {owner : String} {p : Pool} {tx : Nat} :
    ∀ (before : List Pool) (after : List Pool) (i : Nat),
      (∀ q ∈ before, attemptFails L fromMint swapAmount slippage owner q) →
      (candSim L fromMint swapAmount slippage p).status = SimStatus.ok →
      L.execute (candParams L fromMint swapAmount slippage owner p) = Except.ok tx →
      tryPools L fromMint swapAmount slippage owner i (before ++ p :: after) =
        ((before.map (candEvents L fromMint swapAmount slippage owner)).flatten ++
           candEvents L fromMint swapAmount slippage owner p,
         failTrail L fromMint swapAmount slippage owner i before,
         some (candSuccess L fromMint swapAmount slippage p tx))
  | [], after, i, _, hs, he => by
    rw [List.nil_append, tryPools_cons_success hs he]
    simp [failTrail]
  | q :: before, after, i, h, hs, he => by
    rw [List.cons_append, tryPools_cons_fail (h q (List.mem_cons_self q before)),
        tryPools_first_success before after (i + 1)
          (fun x hx => h x (List.mem_cons_of_mem q hx)) hs he]
    simp [failTrail]

/-- Unfolding of `performTokenSwap` when both symbols resolve and discovery
returns at least one candidate. -/
theorem performTokenSwap_run {L : Ledger} {reg : Registry} {fromToken toToken : String}
    {amount : Int} {slippagePercent : ℚ} {owner : String} {fromInfo toInfo : TokenInfo}
    {q : Pool} {qs : List Pool}
    (hfrom : getTokenInfo reg fromToken = Except.ok fromInfo)
    (hto : getTokenInfo reg toToken = Except.ok toInfo)
    (hpools : findBestPoolForPair L.allPools fromInfo.mint toInfo.mint = q :: qs) :
    performTokenSwap L reg fromToken toToken amount slippagePercent owner =
      ([Event.marketInit, Event.listPools, Event.ensureAccount fromInfo.mint owner,
        Event.ensureAccount toInfo.mint owner] ++
         (tryPools L fromInfo.mint (amount * 10 ^ fromInfo.decimals)
           (toDecimal slippagePercent 2) owner 0 (q :: qs)).1,
       (tryPools L fromInfo.mint (amount * 10 ^ fromInfo.decimals)
         (toDecimal slippagePercent 2) owner 0 (q :: qs)).2.1,
       match (tryPools L fromInfo.mint (amount * 10 ^ fromInfo.decimals)
         (toDecimal slippagePercent 2) owner 0 (q :: qs)).2.2 with
       | some s => Except.ok s
       | none =>
         Except.error (SwapError.allFailed "All available pools failed for this swap")) := by
  simp only [performTokenSwap, hfrom, hto, hpools, List.isEmpty_cons, Bool.false_eq_true,
    if_false]
  cases h2 : (tryPools L fromInfo.mint (amount * 10 ^ fromInfo.decimals)
      (toDecimal slippagePercent 2) owner 0 (q :: qs)).2.2 with
  | none => rfl
  | some s => rfl

/-- C3: for every pair of requested tokens, pool discovery returns the
matching pools sorted monotonically non-decreasing by fee, as a permutation of
the Ledger-enumeration-ordered matching pools, and pools sharing a fee keep
their relative enumeration order (stability, phrased through filters). -/
theorem findBestPoolForPair_sorted_and_stable (allPools : List Pool) (tokenA tokenB : Mint) :
    (findBestPoolForPair allPools tokenA tokenB).Pairwise (fun a b => a.fee ≤ b.fee) ∧
    (findBestPoolForPair allPools tokenA tokenB).Perm
      (allPools.filter (poolMatchesPair tokenA tokenB)) ∧
    ∀ f : Nat, (findBestPoolForPair allPools tokenA tokenB).filter (fun p => p.fee == f) =
      (allPools.filter (poolMatchesPair tokenA tokenB)).filter (fun p => p.fee == f) := by
  refine ⟨?_, ?_, ?_⟩
  · have h := List.sorted_mergeSort feeLE_trans feeLE_total
      (allPools.filter (poolMatchesPair tokenA tokenB))
    exact h.imp (fun hab => by simpa [feeLE] using hab)
  · exact List.mergeSort_perm _ _
  · intro f
    exact mergeSort_filter_fee f _

/-- C7: when pool discovery yields zero candidates, `performTokenSwap` fails
with the distinguished no-pools error, and its network trace contains no
simulation call and no execution call. -/
theorem performTokenSwap_noPools {L : Ledger} {reg : Registry} {fromToken toToken : String}
    {amount : Int} {slippagePercent : ℚ} {owner : String} {fromInfo toInfo : TokenInfo}
    (hfrom : getTokenInfo reg fromToken = Except.ok fromInfo)
    (hto : getTokenInfo reg toToken = Except.ok toInfo)
    (hempty : findBestPoolForPair L.allPools fromInfo.mint toInfo.mint = []) :
    (performTokenSwap L reg fromToken toToken amount slippagePercent owner).2.2 =
      Except.error (SwapError.noPools
        ("No liquidity pools found for " ++ fromToken ++ "/" ++ toToken ++ " pair")) ∧
    (performTokenSwap L reg fromToken toToken amount slippagePercent owner).1.filter
      Event.isSimCall = [] ∧
    (performTokenSwap L reg fromToken toToken amount slippagePercent owner).1.filter
      Event.isExecCall = [] := by
  simp [performTokenSwap, hfrom, hto, hempty, Event.isSimCall, Event.isExecCall]

/-- C7 witness: a Ledger enumerating a single pool that matches no requested
token yields the no-pools failure and a trace with zero simulations and zero
executions. -/
theorem performTokenSwap_noPools_witness :
    (performTokenSwap (simFailLedger [⟨7, 8, 5, some 1⟩] "x") regAB "A" "B" 3 1 "o").2.2 =
      Except.error (SwapError.noPools "No liquidity pools found for A/B pair") ∧
    (performTokenSwap (simFailLedger [⟨7, 8, 5, some 1⟩] "x") regAB "A" "B" 3 1 "o").1.filter
      Event.isSimCall = [] ∧
    (performTokenSwap (simFailLedger [⟨7, 8, 5, some 1⟩] "x") regAB "A" "B" 3 1 "o").1.filter
      Event.isExecCall = [] := by
  have hempty : findBestPoolForPair (simFailLedger [⟨7, 8, 5, some 1⟩] "x").allPools 0 1 = [] := by
    have hf : (simFailLedger [⟨7, 8, 5, some 1⟩] "x").allPools.filter (poolMatchesPair 0 1) =
        [] := by decide
    rw [findBestPoolForPair, hf, List.mergeSort_nil]
  have hfrom : getTokenInfo regAB "A" = Except.ok ⟨0, 0⟩ := rfl
  have hto : getTokenInfo regAB "B" = Except.ok ⟨1, 0⟩ := rfl
  exact performTokenSwap_noPools hfrom hto hempty

/-- C8 counterexample: the candidate loop performs no invalid-pool check.
Resolving a pool whose two canonical tokens (2 and 3) match neither the
requested from-token (0) nor the to-token (1) does not fail with any
InvalidPool error (no such error exists in the code); instead a simulation is
issued for it, with direction flag false, and its failure is recorded as an
ordinary per-candidate simulation failure. -/
theorem tryPools_no_invalidPool_check :
    tryPools (simFailLedger [⟨2, 3, 5, some 1⟩] "invalid") 0 100 0 "o" 0
      [⟨2, 3, 5, some 1⟩] =
      ([Event.simCall false 100 0 (2, 3, 5, 1)],
       ["Pool 1 simulation failed: invalid"], none) := by
  decide

/-- C8 amended: the defensive check is unnecessary on the discovery path — a
pool produced by `findBestPoolForPair` always matches the requested pair in
one of the two orders, so a candidate whose tokens match neither request token
never reaches resolution through the orchestrator. -/
theorem findBestPoolForPair_tokens_match {allPools : List Pool} {tokenA tokenB : Mint}
    {p : Pool} (hp : p ∈ findBestPoolForPair allPools tokenA tokenB) :
    (p.tokenX = tokenA ∧ p.tokenY = tokenB) ∨ (p.tokenX = tokenB ∧ p.tokenY = tokenA) := by
  rw [findBestPoolForPair, List.mem_mergeSort] at hp
  have h := List.of_mem_filter hp
  simpa [poolMatchesPair] using h

/-- C8 amended witness: the single matching pool of a concrete enumeration is
drawn from discovery and indeed matches the requested pair. -/
theorem findBestPoolForPair_tokens_match_witness :
    ((⟨0, 1, 5, some 1⟩ : Pool).tokenX = 0 ∧ (⟨0, 1, 5, some 1⟩ : Pool).tokenY = 1) ∨
    ((⟨0, 1, 5, some 1⟩ : Pool).tokenX = 1 ∧ (⟨0, 1, 5, some 1⟩ : Pool).tokenY = 0) := by
  have hp : (⟨0, 1, 5, some 1⟩ : Pool) ∈ findBestPoolForPair [⟨0, 1, 5, some 1⟩] 0 1 := by
    have hf : ([⟨0, 1, 5, some 1⟩] : List Pool).filter (poolMatchesPair 0 1) =
        [⟨0, 1, 5, some 1⟩] := by decide
    rw [findBestPoolForPair, hf, List.mergeSort_singleton]
    exact List.mem_singleton.mpr rfl
  exact findBestPoolForPair_tokens_match hp

/-- C1 (code bug): in the documentation-style swap entry point the direction
flag is hardcoded (`const xToY = false`). For the candidate whose canonical
first token (tokenX = 0) equals the from-token of the attempt (tokenA = 0),
the direction invariant requires `xToY = true`, yet the parameters passed to
execution carry `xToY = false` together with the constant price bound 1. -/
theorem performDocumentationStyleSwap_direction_hardcoded :
    (performDocumentationStyleSwapCall 0 1 400 "o").pair.tokenX = 0 ∧
    (performDocumentationStyleSwapCall 0 1 400 "o").xToY = false ∧
    (performDocumentationStyleSwapCall 0 1 400 "o").estimatedPriceAfterSwap = 1 := by
  decide

/-- C2 (code bug): the `swapSolToUsdt` entry point issues no simulation call at
all and executes with the constant placeholder price bound 1 (`new BN(1)`),
instead of a fresh simulation result. -/
theorem swapSolToUsdt_placeholder_price :
    (swapSolToUsdt 0 1 "o").filter Event.isSimCall = [] ∧
    (swapSolToUsdt 0 1 "o").filter Event.isExecCall =
      [Event.execCall
        { xToY := true, estimatedPriceAfterSwap := 1, pair := ⟨0, 1, 6, 10⟩,
          amount := 500000000, slippage := 1, byAmountIn := true,
          accountX := (0, "o"), accountY := (1, "o"), owner := "o" }] := by
  decide

/-- C4: the orchestrator is first-success-wins. Whenever the fee-ranked
candidate list splits as `before ++ p :: after` with every candidate in
`before` failing and `p` simulating and executing successfully, the request
returns success carrying the receipt of `p` and the address/fee of `p` as
`poolUsed`, and the network trace ends with the block for `p`: no candidate in
`after` is simulated or executed. In particular, when the simulation of the first candidate
reports non-success and the second succeeds, `poolUsed` is the pool address
of the second candidate. -/
theorem performTokenSwap_first_success_wins
    {L : Ledger} {reg : Registry} {fromToken toToken : String} {amount : Int}
    {slippagePercent : ℚ} {owner : String} {fromInfo toInfo : TokenInfo}
    {before : List Pool} {p : Pool} {after : List Pool} {tx : Nat}
    (hfrom : getTokenInfo reg fromToken = Except.ok fromInfo)
    (hto : getTokenInfo reg toToken = Except.ok toInfo)
    (hpools : findBestPoolForPair L.allPools fromInfo.mint toInfo.mint =
      before ++ p :: after)
    (hb : ∀ q ∈ before, attemptFails L fromInfo.mint (amount * 10 ^ fromInfo.decimals)
      (toDecimal slippagePercent 2) owner q)
    (hs : (candSim L fromInfo.mint (amount * 10 ^ fromInfo.decimals)
      (toDecimal slippagePercent 2) p).status = SimStatus.ok)
    (he : L.execute (candParams L fromInfo.mint (amount * 10 ^ fromInfo.decimals)
      (toDecimal slippagePercent 2) owner p) = Except.ok tx) :
    (performTokenSwap L reg fromToken toToken amount slippagePercent owner).2.2 =
      Except.ok (candSuccess L fromInfo.mint (amount * 10 ^ fromInfo.decimals)
        (toDecimal slippagePercent 2) p tx) ∧
    (candSuccess L fromInfo.mint (amount * 10 ^ fromInfo.decimals)
      (toDecimal slippagePercent 2) p tx).poolUsedAddress = (resolvePair p).getAddress ∧
    (candSuccess L fromInfo.mint (amount * 10 ^ fromInfo.decimals)
      (toDecimal slippagePercent 2) p tx).poolUsedFee = p.fee ∧
    (candSuccess L fromInfo.mint (amount * 10 ^ fromInfo.decimals)
      (toDecimal slippagePercent 2) p tx).txHash = tx ∧
    (performTokenSwap L reg fromToken toToken amount slippagePercent owner).1 =
      [Event.marketInit, Event.listPools, Event.ensureAccount fromInfo.mint owner,
       Event.ensureAccount toInfo.mint owner] ++
        ((before.map (candEvents L fromInfo.mint (amount * 10 ^ fromInfo.decimals)
          (toDecimal slippagePercent 2) owner)).flatten ++
         candEvents L fromInfo.mint (amount * 10 ^ fromInfo.decimals)
          (toDecimal slippagePercent 2) owner p) := by
  obtain ⟨q, qs, hqqs⟩ : ∃ q qs, before ++ p :: after = q :: qs := by
    cases before <;> exact ⟨_, _, rfl⟩
  rw [hqqs] at hpools
  have hrun := @performTokenSwap_run L reg fromToken toToken amount slippagePercent owner
    fromInfo toInfo q qs hfrom hto hpools
  rw [← hqqs] at hrun
  rw [tryPools_first_success before after 0 hb hs he] at hrun
  rw [hrun]
  exact ⟨rfl, rfl, rfl, rfl, rfl⟩

/-- C4 witness: the two-candidate scenario with fees 100000000 and 500000000.
The simulation against the first candidate reports a non-success status, the
second candidate simulates and executes successfully, and the returned
`poolUsed` is the pool address of the second candidate (0, 1, 500000000, 1)
with its fee, never that of the first. -/
theorem performTokenSwap_first_success_wins_witness :
    (performTokenSwap scenarioLedger regAB "A" "B" 5 0 "o").2.2 =
      Except.ok { txHash := 99, estimatedToAmount := some 42,
                  poolUsedAddress := (0, 1, 500000000, 1), poolUsedFee := 500000000 } := by
  have hfrom : getTokenInfo regAB "A" = Except.ok ⟨0, 0⟩ := rfl
  have hto : getTokenInfo regAB "B" = Except.ok ⟨1, 0⟩ := rfl
  have hpools : findBestPoolForPair scenarioLedger.allPools 0 1 = [pool1] ++ pool2 :: [] := by
    have hf : scenarioLedger.allPools.filter (poolMatchesPair 0 1) = [pool1, pool2] := by
      decide
    rw [findBestPoolForPair, hf, List.mergeSort_of_sorted (by decide)]
    rfl
  have hb : ∀ q ∈ [pool1], attemptFails scenarioLedger 0 (5 * 10 ^ (0 : Nat))
      (toDecimal 0 2) "o" q := by
    intro q hq
    rw [List.mem_singleton] at hq
    subst hq
    exact Or.inl ⟨"TooLargeGap", by decide⟩
  have hs : (candSim scenarioLedger 0 (5 * 10 ^ (0 : Nat)) (toDecimal 0 2) pool2).status =
      SimStatus.ok := by decide
  have he : scenarioLedger.execute (candParams scenarioLedger 0 (5 * 10 ^ (0 : Nat))
      (toDecimal 0 2) "o" pool2) = Except.ok 99 := rfl
  have h := performTokenSwap_first_success_wins hfrom hto hpools hb hs he
  rw [h.1]
  exact congrArg Except.ok (by decide)

/-- C5 amended: when every discovered candidate is tried and none succeeds,
`performTokenSwap` returns the single constant aggregate failure; the
per-candidate failure reasons are recorded only on the console log, exactly one
line per candidate tried, in candidate order (the k-th log line is the reason
of the k-th candidate), and are not part of the returned failure. -/
theorem performTokenSwap_allFailed_generic
    {L : Ledger} {reg : Registry} {fromToken toToken : String} {amount : Int}
    {slippagePercent : ℚ} {owner : String} {fromInfo toInfo : TokenInfo}
    {q : Pool} {qs : List Pool}
    (hfrom : getTokenInfo reg fromToken = Except.ok fromInfo)
    (hto : getTokenInfo reg toToken = Except.ok toInfo)
    (hpools : findBestPoolForPair L.allPools fromInfo.mint toInfo.mint = q :: qs)
    (hb : ∀ x ∈ q :: qs, attemptFails L fromInfo.mint (amount * 10 ^ fromInfo.decimals)
      (toDecimal slippagePercent 2) owner x) :
    (performTokenSwap L reg fromToken toToken amount slippagePercent owner).2.2 =
      Except.error (SwapError.allFailed "All available pools failed for this swap") ∧
    (performTokenSwap L reg fromToken toToken amount slippagePercent owner).2.1.length =
      (q :: qs).length ∧
    ∀ (k : Nat) (hk : k < (q :: qs).length)
      (hk' : k < (performTokenSwap L reg fromToken toToken amount slippagePercent
        owner).2.1.length),
      (performTokenSwap L reg fromToken toToken amount slippagePercent owner).2.1.get
        ⟨k, hk'⟩ =
        candReason L fromInfo.mint (amount * 10 ^ fromInfo.decimals)
          (toDecimal slippagePercent 2) owner k ((q :: qs).get ⟨k, hk⟩) := by
  have hrun := @performTokenSwap_run L reg fromToken toToken amount slippagePercent owner
    fromInfo toInfo q qs hfrom hto hpools
  rw [tryPools_all_fail (q :: qs) 0 hb] at hrun
  rw [hrun]
  refine ⟨rfl, failTrail_length (q :: qs) 0, ?_⟩
  intro k hk hk'
  have hk'' : k < (failTrail L fromInfo.mint (amount * 10 ^ fromInfo.decimals)
      (toDecimal slippagePercent 2) owner 0 (q :: qs)).length := by
    rw [failTrail_length]
    exact hk
  have h := failTrail_get (q :: qs) 0 k hk hk''
  simpa using h

/-- C5 amended witness: one candidate, whose simulation fails; the result is
the constant aggregate failure and the log has exactly that one line. -/
theorem performTokenSwap_allFailed_generic_witness :
    (performTokenSwap (simFailLedger [⟨0, 1, 5, some 1⟩] "insufficient liquidity") regAB
      "A" "B" 1 0 "o").2.2 =
      Except.error (SwapError.allFailed "All available pools failed for this swap") ∧
    (performTokenSwap (simFailLedger [⟨0, 1, 5, some 1⟩] "insufficient liquidity") regAB
      "A" "B" 1 0 "o").2.1.length = 1 := by
  have hfrom : getTokenInfo regAB "A" = Except.ok ⟨0, 0⟩ := rfl
  have hto : getTokenInfo regAB "B" = Except.ok ⟨1, 0⟩ := rfl
  have hpools : findBestPoolForPair
      (simFailLedger [⟨0, 1, 5, some 1⟩] "insufficient liquidity").allPools 0 1 =
      (⟨0, 1, 5, some 1⟩ : Pool) :: [] := by
    have hf : (simFailLedger [⟨0, 1, 5, some 1⟩] "insufficient liquidity").allPools.filter
        (poolMatchesPair 0 1) = [⟨0, 1, 5, some 1⟩] := by decide
    rw [findBestPoolForPair, hf, List.mergeSort_singleton]
  have hb : ∀ x ∈ (⟨0, 1, 5, some 1⟩ : Pool) :: [],
      attemptFails (simFailLedger [⟨0, 1, 5, some 1⟩] "insufficient liquidity") 0
        (1 * 10 ^ (0 : Nat)) (toDecimal 0 2) "o" x := by
    intro x hx
    rw [List.mem_singleton] at hx
    subst hx
    exact Or.inl ⟨"insufficient liquidity", rfl⟩
  have h := performTokenSwap_allFailed_generic hfrom hto hpools hb
  exact ⟨h.1, h.2.1⟩

/-- C5 counterexample: the claimed behaviour — that the failure returned to the
caller carries the ordered per-candidate reasons — is false: two runs whose
per-candidate failure reasons differ return the very same failure value (the
constant message), while only their console logs differ, so the returned
failure cannot carry the reasons. -/
theorem performTokenSwap_reasons_not_returned :
    (performTokenSwap (simFailLedger [⟨0, 1, 5, some 1⟩] "insufficient liquidity") regAB
      "A" "B" 1 0 "o").2.2 =
      (performTokenSwap (simFailLedger [⟨0, 1, 5, some 1⟩] "tick out of range") regAB
        "A" "B" 1 0 "o").2.2 ∧
    (performTokenSwap (simFailLedger [⟨0, 1, 5, some 1⟩] "insufficient liquidity") regAB
      "A" "B" 1 0 "o").2.1 ≠
      (performTokenSwap (simFailLedger [⟨0, 1, 5, some 1⟩] "tick out of range") regAB
        "A" "B" 1 0 "o").2.1 := by
  have hfrom : getTokenInfo regAB "A" = Except.ok ⟨0, 0⟩ := rfl
  have hto : getTokenInfo regAB "B" = Except.ok ⟨1, 0⟩ := rfl
  have hpools1 : findBestPoolForPair
      (simFailLedger [⟨0, 1, 5, some 1⟩] "insufficient liquidity").allPools 0 1 =
      (⟨0, 1, 5, some 1⟩ : Pool) :: [] := by
    have hf : (simFailLedger [⟨0, 1, 5, some 1⟩] "insufficient liquidity").allPools.filter
        (poolMatchesPair 0 1) = [⟨0, 1, 5, some 1⟩] := by decide
    rw [findBestPoolForPair, hf, List.mergeSort_singleton]
  have hpools2 : findBestPoolForPair
      (simFailLedger [⟨0, 1, 5, some 1⟩] "tick out of range").allPools 0 1 =
      (⟨0, 1, 5, some 1⟩ : Pool) :: [] := by
    have hf : (simFailLedger [⟨0, 1, 5, some 1⟩] "tick out of range").allPools.filter
        (poolMatchesPair 0 1) = [⟨0, 1, 5, some 1⟩] := by decide
    rw [findBestPoolForPair, hf, List.mergeSort_singleton]
  have h1 := @performTokenSwap_run
    (simFailLedger [⟨0, 1, 5, some 1⟩] "insufficient liquidity") regAB "A" "B" 1 0 "o"
    ⟨0, 0⟩ ⟨1, 0⟩ ⟨0, 1, 5, some 1⟩ [] hfrom hto hpools1
  have h2 := @performTokenSwap_run
    (simFailLedger [⟨0, 1, 5, some 1⟩] "tick out of range") regAB "A" "B" 1 0 "o"
    ⟨0, 0⟩ ⟨1, 0⟩ ⟨0, 1, 5, some 1⟩ [] hfrom hto hpools2
  rw [h1, h2]
  constructor
  · rfl
  · decide

theorem candEvents_amount {L : Ledger} {m : Mint} {amt : Int} {s : ℚ} {o : String}
    {pool : Pool} {e : Event} (he : e ∈ candEvents L m amt s o pool) :
    e.amountOf = some amt := by
  unfold candEvents at he
  cases h : (candSim L m amt s pool).status with
  | fail r =>
    rw [h] at he
    rw [List.mem_singleton] at he
    subst he
    rfl
  | ok =>
    rw [h] at he
    rcases List.mem_pair.mp he with h1 | h1 <;> subst h1
    · rfl
    · simp [Event.amountOf, candParams]

theorem tryPools_events_amount {L : Ledger} {m : Mint} {amt : Int} {s : ℚ} {o : String} :
    ∀ (ps : List Pool) (i : Nat) (e : Event), e ∈ (tryPools L m amt s o i ps).1 →
      e.amountOf = some amt
  | [], _, e, he => absurd he (List.not_mem_nil e)
  | pool :: rest, i, e, he => by
    by_cases hok : (candSim L m amt s pool).status = SimStatus.ok
    · cases hex : L.execute (candParams L m amt s o pool) with
      | ok tx =>
        rw [tryPools_cons_success hok hex] at he
        exact candEvents_amount he
      | error er =>
        rw [tryPools_cons_execFail hok hex] at he
        rcases List.mem_append.mp he with h1 | h1
        · exact candEvents_amount h1
        · exact tryPools_events_amount rest (i + 1) e h1
    · obtain ⟨r, hr⟩ : ∃ r, (candSim L m amt s pool).status = SimStatus.fail r := by
        cases h : (candSim L m amt s pool).status with
        | ok => exact absurd h hok
        | fail r => exact ⟨r, rfl⟩
      rw [tryPools_cons_simFail hr] at he
      rcases List.mem_append.mp he with h1 | h1
      · exact candEvents_amount h1
      · exact tryPools_events_amount rest (i + 1) e h1

/-- C9 amended: the request amount is denominated in whole tokens, not in the
smallest unit — every simulation call and every execution call issued by
`performTokenSwap` carries the quantity `amount * 10 ^ decimals(fromToken)`,
i.e. the request amount scaled by the from-token decimal precision (calls that
carry no BN amount, such as discovery, carry none). -/
theorem performTokenSwap_amount_scaled
    {L : Ledger} {reg : Registry} {fromToken toToken : String} {amount : Int}
    {slippagePercent : ℚ} {owner : String} {fromInfo toInfo : TokenInfo}
    (hfrom : getTokenInfo reg fromToken = Except.ok fromInfo)
    (hto : getTokenInfo reg toToken = Except.ok toInfo) :
    ∀ e ∈ (performTokenSwap L reg fromToken toToken amount slippagePercent owner).1,
      e.amountOf = none ∨ e.amountOf = some (amount * 10 ^ fromInfo.decimals) := by
  intro e he
  cases hp : findBestPoolForPair L.allPools fromInfo.mint toInfo.mint with
  | nil =>
    rw [show performTokenSwap L reg fromToken toToken amount slippagePercent owner =
        ([Event.marketInit, Event.listPools], [],
         Except.error (SwapError.noPools ("No liquidity pools found for " ++ fromToken ++
           "/" ++ toToken ++ " pair"))) from by
      simp [performTokenSwap, hfrom, hto, hp]] at he
    rcases List.mem_pair.mp he with h1 | h1 <;> subst h1 <;> exact Or.inl rfl
  | cons q qs =>
    rw [@performTokenSwap_run L reg fromToken toToken amount slippagePercent owner
      fromInfo toInfo q qs hfrom hto hp] at he
    rcases List.mem_append.mp he with h1 | h1
    · simp only [List.mem_cons, List.not_mem_nil, or_false] at h1
      rcases h1 with h1 | h1 | h1 | h1 <;> subst h1 <;> exact Or.inl rfl
    · exact Or.inr (tryPools_events_amount (q :: qs) 0 e h1)

/-- C9 amended witness: with a 6-decimal from-token and request amount 1, the
single simulation call carries 1000000. -/
theorem performTokenSwap_amount_scaled_witness :
    (Event.simCall true 1000000 (toDecimal 0 2) (0, 1, 5, 1)).amountOf = none ∨
    (Event.simCall true 1000000 (toDecimal 0 2) (0, 1, 5, 1)).amountOf =
      some (1 * 10 ^ (6 : Nat)) := by
  have hfrom : getTokenInfo regA6 "A" = Except.ok ⟨0, 6⟩ := rfl
  have hto : getTokenInfo regA6 "B" = Except.ok ⟨1, 0⟩ := rfl
  have hpools : findBestPoolForPair (simFailLedger [⟨0, 1, 5, some 1⟩] "x").allPools 0 1 =
      (⟨0, 1, 5, some 1⟩ : Pool) :: [] := by
    have hf : (simFailLedger [⟨0, 1, 5, some 1⟩] "x").allPools.filter
        (poolMatchesPair 0 1) = [⟨0, 1, 5, some 1⟩] := by decide
    rw [findBestPoolForPair, hf, List.mergeSort_singleton]
  refine @performTokenSwap_amount_scaled (simFailLedger [⟨0, 1, 5, some 1⟩] "x") regA6
    "A" "B" 1 0 "o" ⟨0, 6⟩ ⟨1, 0⟩ hfrom hto
    (Event.simCall true 1000000 (toDecimal 0 2) (0, 1, 5, 1)) ?_
  rw [@performTokenSwap_run (simFailLedger [⟨0, 1, 5, some 1⟩] "x") regA6 "A" "B" 1 0 "o"
    ⟨0, 6⟩ ⟨1, 0⟩ ⟨0, 1, 5, some 1⟩ [] hfrom hto hpools]
  exact List.mem_append.mpr (Or.inr
    (show Event.simCall true 1000000 (toDecimal 0 2) (0, 1, 5, 1) ∈
        [Event.simCall true 1000000 (toDecimal 0 2) (0, 1, 5, 1)] from
      List.mem_singleton.mpr rfl))

/-- C9 counterexample: the claim that the quantity passed to simulation equals
the request amount with no decimal scaling is false — for request amount 1 on
a 6-decimal from-token, the simulation call carries 1000000, not 1. -/
theorem performTokenSwap_amount_is_scaled_counterexample :
    (performTokenSwap (simFailLedger [⟨0, 1, 5, some 1⟩] "x") regA6 "A" "B" 1 0 "o").1.filter
      Event.isSimCall = [Event.simCall true 1000000 (toDecimal 0 2) (0, 1, 5, 1)] ∧
    (1000000 : Int) ≠ 1 := by
  have hfrom : getTokenInfo regA6 "A" = Except.ok ⟨0, 6⟩ := rfl
  have hto : getTokenInfo regA6 "B" = Except.ok ⟨1, 0⟩ := rfl
  have hpools : findBestPoolForPair (simFailLedger [⟨0, 1, 5, some 1⟩] "x").allPools 0 1 =
      (⟨0, 1, 5, some 1⟩ : Pool) :: [] := by
    have hf : (simFailLedger [⟨0, 1, 5, some 1⟩] "x").allPools.filter
        (poolMatchesPair 0 1) = [⟨0, 1, 5, some 1⟩] := by decide
    rw [findBestPoolForPair, hf, List.mergeSort_singleton]
  constructor
  · rw [@performTokenSwap_run (simFailLedger [⟨0, 1, 5, some 1⟩] "x") regA6 "A" "B" 1 0 "o"
      ⟨0, 6⟩ ⟨1, 0⟩ ⟨0, 1, 5, some 1⟩ [] hfrom hto hpools]
    rfl
  · decide

/-- C6: a swap request whose amount is non-positive, or whose two token
symbols are equal, or whose slippage (after the 0.5 default) falls outside
[0, 50], is rejected by the `/api/swap` handler with a 400 validation failure,
with an empty network trace: no Ledger call of any kind is issued. -/
theorem apiSwap_rejects_invalid_before_network (L : Ledger) (reg : Registry)
    (body : SwapRequestBody)
    (h : body.amount.getD 0 ≤ 0 ∨ body.fromToken = body.toToken ∨
         body.slippage.getD (1 / 2 : ℚ) < 0 ∨ body.slippage.getD (1 / 2 : ℚ) > 50) :
    (apiSwapHandler L reg body).2.2.status = 400 ∧
    (apiSwapHandler L reg body).2.2.success = false ∧
    (apiSwapHandler L reg body).1 = [] := by
  simp only [apiSwapHandler]
  split_ifs with h1 h2 h3 h4
  · exact ⟨rfl, rfl, rfl⟩
  · exact ⟨rfl, rfl, rfl⟩
  · exact ⟨rfl, rfl, rfl⟩
  · exact ⟨rfl, rfl, rfl⟩
  · exfalso
    rcases h with ha | hft | hs1 | hs2
    · exact h3 ha
    · apply h2
      rw [hft]
      exact beq_self_eq_true _
    · exact h4 (by simp only [Bool.or_eq_true, decide_eq_true_eq]; exact Or.inl hs1)
    · exact h4 (by simp only [Bool.or_eq_true, decide_eq_true_eq]; exact Or.inr hs2)

/-- C6 witness: a request with amount -5 is rejected with status 400, success
false, and an empty network trace. -/
theorem apiSwap_rejects_invalid_before_network_witness :
    (apiSwapHandler (simFailLedger [] "x") regAB
      { fromToken := some "A", toToken := some "B", amount := some (-5),
        slippage := some 1, privateKey := some "k" }).2.2.status = 400 ∧
    (apiSwapHandler (simFailLedger [] "x") regAB
      { fromToken := some "A", toToken := some "B", amount := some (-5),
        slippage := some 1, privateKey := some "k" }).2.2.success = false ∧
    (apiSwapHandler (simFailLedger [] "x") regAB
      { fromToken := some "A", toToken := some "B", amount := some (-5),
        slippage := some 1, privateKey := some "k" }).1 = [] :=
  apiSwap_rejects_invalid_before_network (simFailLedger [] "x") regAB
    { fromToken := some "A", toToken := some "B", amount := some (-5),
      slippage := some 1, privateKey := some "k" }
    (Or.inl (by norm_num))

/-- C10: for a quote request over a pair with at least one matching pool, the
quote endpoint issues exactly one simulation, against the first pool of the
fee-sorted candidate list, issues no execution, and when that single
simulation reports a non-success status the quote fails with 400 — no
alternate pool is tried. -/
theorem apiQuote_single_lowest_fee
    {L : Ledger} {reg : Registry} {f t : String} {n : Int} {s : ℚ}
    {fromInfo toInfo : TokenInfo} {pool : Pool} {rest : List Pool}
    (hf : (f == "") = false) (ht : (t == "") = false) (hn : (n == 0) = false)
    (hfrom : getTokenInfo reg f = Except.ok fromInfo)
    (hto : getTokenInfo reg t = Except.ok toInfo)
    (hpools : findBestPoolForPair L.allPools fromInfo.mint toInfo.mint = pool :: rest) :
    (apiQuoteHandler L reg ⟨some f, some t, some n, some s⟩).1.filter Event.isSimCall =
      [Event.simCall ((resolvePair pool).tokenX == fromInfo.mint)
        (n * 10 ^ fromInfo.decimals) (toDecimal s 2) (resolvePair pool).getAddress] ∧
    (apiQuoteHandler L reg ⟨some f, some t, some n, some s⟩).1.filter Event.isExecCall =
      [] ∧
    ∀ r, (L.simulate ((resolvePair pool).tokenX == fromInfo.mint)
        (n * 10 ^ fromInfo.decimals) (toDecimal s 2)
        (resolvePair pool).getAddress).status = SimStatus.fail r →
      (apiQuoteHandler L reg ⟨some f, some t, some n, some s⟩).2 =
        { status := 400, success := false, error := some ("Simulation failed: " ++ r),
          estimatedToAmount := none, fee := none } := by
  have hcond : (falsyStr (some f) || falsyStr (some t) || falsyNum (some n)) = false := by
    simp [falsyStr, falsyNum, hf, ht, hn]
  simp only [apiQuoteHandler, hcond, Bool.false_eq_true, if_false, Option.getD_some,
    hfrom, hto, hpools]
  cases hst : (L.simulate ((resolvePair pool).tokenX == fromInfo.mint)
      (n * 10 ^ fromInfo.decimals) (toDecimal s 2) (resolvePair pool).getAddress).status with
  | fail r0 =>
    refine ⟨by simp [Event.isSimCall, Event.isExecCall], by simp [Event.isSimCall,
      Event.isExecCall], ?_⟩
    intro r hr
    cases hr
    rfl
  | ok =>
    refine ⟨by simp [Event.isSimCall, Event.isExecCall], by simp [Event.isSimCall,
      Event.isExecCall], ?_⟩
    intro r hr
    cases hr

/-- C10 witness: one matching pool whose simulation fails yields a 400 quote
failure carrying the simulation status, after exactly one simulation. -/
theorem apiQuote_single_lowest_fee_witness :
    (apiQuoteHandler (simFailLedger [⟨0, 1, 5, some 1⟩] "no liquidity") regAB
      ⟨some "A", some "B", some 2, some 0⟩).2 =
      { status := 400, success := false, error := some "Simulation failed: no liquidity",
        estimatedToAmount := none, fee := none } := by
  have hfrom : getTokenInfo regAB "A" = Except.ok ⟨0, 0⟩ := rfl
  have hto : getTokenInfo regAB "B" = Except.ok ⟨1, 0⟩ := rfl
  have hpools : findBestPoolForPair
      (simFailLedger [⟨0, 1, 5, some 1⟩] "no liquidity").allPools 0 1 =
      (⟨0, 1, 5, some 1⟩ : Pool) :: [] := by
    have hfl : (simFailLedger [⟨0, 1, 5, some 1⟩] "no liquidity").allPools.filter
        (poolMatchesPair 0 1) = [⟨0, 1, 5, some 1⟩] := by decide
    rw [findBestPoolForPair, hfl, List.mergeSort_singleton]
  have h := @apiQuote_single_lowest_fee
    (simFailLedger [⟨0, 1, 5, some 1⟩] "no liquidity") regAB "A" "B" 2 0 ⟨0, 0⟩ ⟨1, 0⟩
    ⟨0, 1, 5, some 1⟩ [] (by decide) (by decide) (by decide) hfrom hto hpools
  exact h.2.2 "no liquidity" rfl
